import Mathlib

/-!
Verification of the concurrent media-compression orchestrator.

This file gives a shallow embedding, in Lean 4, of the parts of the
repository relevant to the frozen claims: the extension-based job
classifier (`pipeline.py`, `compressor.py`, `main.py`), the fallback
execution chain `compress_file` (`compressor.py`), the progress-stream
parser `_run_ffmpeg_with_progress` (`compressor.py`), the per-task
lifecycle `task` with its semaphore discipline and size accounting
(`main.py`), and `get_file_size` (`stats.py`).

External effects are modelled by explicit oracles:
  * the external tool's behaviour on attempt `k` is a `ProcResult`
    supplied by an environment `env : Nat → ProcResult`;
  * the filesystem is a map `String → Option Nat` (path to size;
    `none` means the file does not exist, which is what makes
    `os.path.getsize` raise `FileNotFoundError`);
  * an unexpected fault inside a task's try-block is an
    `Except.error` outcome of the compression call.

Python floats are embedded as `Rat` (all values arising here are exact
decimals), Python ints as `Int`/`Nat`.
-/

set_option autoImplicit false
set_option linter.unusedVariables false

/-! ### Python string primitives used by the sources -/

/-- Characters removed by Python's `str.strip()` with no argument. -/
def isPySpace (c : Char) : Bool :=
  c = ' ' || c = '\t' || c = '\n' || c = '\r' || c = '\x0b' || c = '\x0c'

/-- `str.strip()` on a character list: drop whitespace at both ends. -/
def pyStripChars (cs : List Char) : List Char :=
  ((cs.dropWhile isPySpace).reverse.dropWhile isPySpace).reverse

/-- `str.strip()`. -/
def pyStrip (s : String) : String :=
  (pyStripChars s.toList).asString

/-- Numeric value of a list of decimal digit characters. -/
def digitsVal (cs : List Char) : Nat :=
  cs.foldl (fun a c => a * 10 + (c.toNat - 48)) 0

/-- Python `int(s)` on a plain decimal literal (optional sign, digits);
returns `none` where `int()` raises `ValueError`. -/
def pyIntChars? (cs : List Char) : Option Int :=
  let cs := pyStripChars cs
  let sgn : Int := match cs with
    | '-' :: _ => -1
    | _ => 1
  let cs2 : List Char := match cs with
    | '-' :: t => t
    | '+' :: t => t
    | _ => cs
  if cs2.isEmpty || !cs2.all Char.isDigit then none
  else some (sgn * (digitsVal cs2 : Int))

/-- Python `int(s)`. -/
def pyInt? (s : String) : Option Int := pyIntChars? s.toList

/-- Syntactic phase of Python `float(s)` on a plain decimal literal:
sign, integer-part value, fractional-part value, fractional-part digit
count. `none` where `float()` raises. Exponent/inf/nan forms are not
produced by the tool's progress fields and are not modelled. -/
def pyFloatParts? (cs : List Char) : Option (Int × Nat × Nat × Nat) :=
  let cs := pyStripChars cs
  let sgn : Int := match cs with
    | '-' :: _ => -1
    | _ => 1
  let cs2 : List Char := match cs with
    | '-' :: t => t
    | '+' :: t => t
    | _ => cs
  let ip := cs2.takeWhile Char.isDigit
  let rest := cs2.drop ip.length
  match rest with
  | [] => if ip.isEmpty then none else some (sgn, digitsVal ip, 0, 0)
  | '.' :: fp =>
      if fp.all Char.isDigit && !(ip.isEmpty && fp.isEmpty) then
        some (sgn, digitsVal ip, digitsVal fp, fp.length)
      else none
  | _ => none

/-- The rational value denoted by a parsed decimal literal. -/
def ratOfFloatParts : Int × Nat × Nat × Nat → Rat
  | (sgn, ip, fp, fl) => (sgn : Rat) * ((ip : Rat) + (fp : Rat) / ((10 : Rat) ^ fl))

/-- Python `float(s)` as an exact rational. -/
def pyFloatChars? (cs : List Char) : Option Rat :=
  (pyFloatParts? cs).map ratOfFloatParts

/-- Python `float(s)`. -/
def pyFloat? (s : String) : Option Rat := pyFloatChars? s.toList

/-- The part of `path` after the last `/` (the `posixpath` basename). -/
def lastComponent (cs : List Char) : List Char :=
  (cs.reverse.takeWhile (fun c => c ≠ '/')).reverse

/-- `os.path.splitext(p)[1]`: the extension of the basename, beginning at
its last dot, provided some non-dot character of the basename precedes
that dot (so `.bashrc` has extension `""`). -/
def splitextExt (p : String) : String :=
  let base := lastComponent p.toList
  let rest := base.dropWhile (fun c => c = '.')
  if rest.contains '.' then
    ('.' :: (rest.reverse.takeWhile (fun c => c ≠ '.')).reverse).asString
  else ""

/-- `os.path.splitext(p)[1].lower()`, the classification key used by
`compressor.py`, `pipeline.py` and `main.py` alike. -/
def extOf (p : String) : String :=
  ((splitextExt p).toList.map Char.toLower).asString

namespace compressor

/-- `compressor.VIDEO_EXTS` (a Python set; only membership is used). -/
def VIDEO_EXTS : List String := [".mp4", ".mov", ".mkv", ".avi", ".webm"]

/-- `compressor.IMAGE_EXTS`. -/
def IMAGE_EXTS : List String := [".jpg", ".jpeg", ".png"]

/-- Behaviour of one external process invocation: its exit status, wall
time consumed, and what it wrote to stderr. -/
structure ProcResult where
  returncode : Int
  elapsed : Rat
  stderr : String
deriving Repr, DecidableEq

/-- `_run_ffmpeg`: success is `returncode == 0`; returns elapsed wall
time and `proc.stderr.strip()`. -/
def run_ffmpeg (r : ProcResult) : Bool × Rat × String :=
  (r.returncode == 0, r.elapsed, pyStrip r.stderr)

/-- Return value of `_run_ffmpeg_with_progress`: same success criterion,
but the stderr channel is closed unread, so the diagnostic is `''`
(line 185 of `compressor.py`). -/
def run_ffmpeg_with_progress_ret (r : ProcResult) : Bool × Rat × String :=
  (r.returncode == 0, r.elapsed, "")

/-- Whether an attempt's process counts as successful: exit status zero. -/
def attemptOk (r : ProcResult) : Bool := r.returncode == 0

/-- The diagnostic text an attempt contributes: stripped stderr from
`_run_ffmpeg`, the empty string from `_run_ffmpeg_with_progress`. -/
def attemptErr (useProgress : Bool) (r : ProcResult) : String :=
  if useProgress then "" else pyStrip r.stderr

/-- `"\n".join([msg for msg in msgs if msg])`. -/
def joinDiagnostics (msgs : List String) : String :=
  String.intercalate "\n" (msgs.filter (fun m => !m.isEmpty))

/-- The result dictionary of `compress_file`:
`{'type', 'duration_sec', 'error', 'error_log'}`. -/
structure CFResult where
  type : String
  duration_sec : Rat
  error : Option String
  error_log : String
deriving Repr, DecidableEq

/-- `compress_file(input_path, output_path, progress_cb, duration_s)`.
`useProgress` is `progress_cb is not None`; `env k` is the external
process behaviour of attempt `k` (0-based). Besides the result
dictionary we return the list of attempt indices actually invoked, in
invocation order. The progress samples emitted by streaming attempts
are modelled separately by `processLine` below. -/
def compress_file (input_path : String) (useProgress : Bool)
    (env : Nat → ProcResult) : CFResult × List Nat :=
  let ext := extOf input_path
  if ext ∈ VIDEO_EXTS then
    -- Try 1: NVENC with CUDA hwaccel
    if attemptOk (env 0) then
      ({ type := "video-gpu", duration_sec := (env 0).elapsed,
         error := none, error_log := "" }, [0])
    -- Try 2: NVENC with software decode
    else if attemptOk (env 1) then
      ({ type := "video-gpu-swdec", duration_sec := (env 1).elapsed,
         error := none, error_log := "" }, [0, 1])
    -- Try 3: CPU libx264
    else if attemptOk (env 2) then
      ({ type := "video-cpu", duration_sec := (env 2).elapsed,
         error := none, error_log := "" }, [0, 1, 2])
    else
      -- All attempts failed: join the non-empty diagnostics
      ({ type := "video-failed", duration_sec := 0,
         error := some "ffmpeg_failed",
         error_log := joinDiagnostics
           [attemptErr useProgress (env 0), attemptErr useProgress (env 1),
            attemptErr useProgress (env 2)] }, [0, 1, 2])
  else if ext ∈ IMAGE_EXTS then
    -- Image attempts never stream progress: both use _run_ffmpeg
    if attemptOk (env 0) then
      ({ type := "image-gpu", duration_sec := (env 0).elapsed,
         error := none, error_log := "" }, [0])
    else if attemptOk (env 1) then
      ({ type := "image-cpu", duration_sec := (env 1).elapsed,
         error := none, error_log := "" }, [0, 1])
    else
      -- Source returns only err2 here, not a concatenation
      ({ type := "image-failed", duration_sec := 0,
         error := some "ffmpeg_failed",
         error_log := attemptErr false (env 1) }, [0, 1])
  else
    ({ type := "skip", duration_sec := 0, error := none, error_log := "" }, [])

/-- Strategy tags of the fallback chain for a given extension, in
attempt order. -/
def attemptTags (ext : String) : List String :=
  if ext ∈ VIDEO_EXTS then ["video-gpu", "video-gpu-swdec", "video-cpu"]
  else if ext ∈ IMAGE_EXTS then ["image-gpu", "image-cpu"]
  else []

/-! #### Progress Tracker (`_run_ffmpeg_with_progress`, lines 99-185)

The tracker keeps one piece of state, the local variable `percent`, and
invokes `progress_cb(percent, speed, out_time_s)` on recognized lines.
We model a callback invocation as a `Sample` and processing of one
stream line as `percent → percent × emitted samples`. The callback is
always present in the calls the source makes with streaming enabled. -/

/-- One `progress_cb(percent, speed_x, out_time_s)` invocation. -/
structure Sample where
  percent : Rat
  speed : Option Rat
  out_time_s : Option Rat
deriving Repr, DecidableEq

/-- Split a character list at every occurrence of `c`
(Python `str.split(sep)` for a one-character separator). -/
def splitOnChar (c : Char) : List Char → List (List Char)
  | [] => [[]]
  | a :: t =>
      let r := splitOnChar c t
      if a = c then [] :: r
      else
        match r with
        | h :: t2 => (a :: h) :: t2
        | [] => [[a]]

/-- The `out_time` branch: `h, m, s = val.split(':')` with `int(h)`,
`int(m)`, `float(s)`; any failure is swallowed by the `except`. -/
def splitTimeVal (val : String) : Option (Int × Int × Rat) :=
  match splitOnChar ':' val.toList with
  | [h, m, s] =>
      match pyIntChars? h, pyIntChars? m, pyFloatChars? s with
      | some hn, some mn, some sr => some (hn, mn, sr)
      | _, _, _ => none
  | _ => none

/-- The `speed` branch:
`float(val.replace('x', '')) if val.endswith('x') else None`,
with parse failures mapped to `None` by the `except`. -/
def removeAllChar (c : Char) (s : String) : String :=
  (s.toList.filter (fun a => a ≠ c)).asString

/-- Parsed speed multiplier of a `speed` value. -/
def parseSpeed (val : String) : Option Rat :=
  if val.toList.getLast? = some 'x' then pyFloat? (removeAllChar 'x' val)
  else none

/-- `percent` recomputation on an elapsed-position line:
`max(0.0, min(100.0, out_s / duration_s * 100.0))` when a positive
duration is known (`if duration_s and duration_s > 0`), else `0.0`. -/
def computePercent (duration_s : Option Rat) (out_s : Rat) : Rat :=
  match duration_s with
  | some d => if 0 < d then max 0 (min 100 (out_s / d * 100)) else 0
  | none => 0

/-- Dispatch on a `key=value` progress line (lines 120-171 of
`compressor.py`): returns the new `percent` state and the samples
emitted to the callback. -/
def handleKV (duration_s : Option Rat) (percent : Rat) (key val : String) :
    Rat × List Sample :=
  if key = "out_time_ms" then
    match pyInt? val with
    | some out_ms =>
        let out_s : Rat := (out_ms : Rat) / 1000000
        let p := computePercent duration_s out_s
        (p, [⟨p, none, some out_s⟩])
    | none => (percent, [])
  else if key = "out_time_us" then
    match pyInt? val with
    | some out_us =>
        let out_s : Rat := (out_us : Rat) / 1000000
        let p := computePercent duration_s out_s
        (p, [⟨p, none, some out_s⟩])
    | none => (percent, [])
  else if key = "out_time" then
    match splitTimeVal val with
    | some (hn, mn, sr) =>
        let out_s : Rat := (hn : Rat) * 3600 + (mn : Rat) * 60 + sr
        let p := computePercent duration_s out_s
        (p, [⟨p, none, some out_s⟩])
    | none => (percent, [])
  else if key = "speed" then
    (percent, [⟨percent, parseSpeed val, none⟩])
  else if key = "progress" then
    if val = "end" then (percent, [⟨100, none, none⟩])
    else (percent, [])
  else (percent, [])

/-- Processing of one raw stream line: strip it, skip it when empty or
without `=`, else split at the first `=` and dispatch. -/
def processLine (duration_s : Option Rat) (percent : Rat) (line : String) :
    Rat × List Sample :=
  let l := pyStripChars line.toList
  if l.isEmpty then (percent, [])
  else if l.contains '=' then
    let key := l.takeWhile (fun c => c ≠ '=')
    let val := l.drop (key.length + 1)
    handleKV duration_s percent key.asString val.asString
  else (percent, [])

/-- The whole stream: the initial `progress_cb(0.0, None, 0.0)` tick,
then the lines in order. Returns the final `percent` state and all
emitted samples. -/
def runStream (duration_s : Option Rat) (lines : List String) :
    Rat × List Sample :=
  lines.foldl
    (fun st line =>
      let r := processLine duration_s st.1 line
      (r.1, st.2 ++ r.2))
    ((0 : Rat), [⟨0, none, some 0⟩])

end compressor

namespace stats

/-- `stats.get_file_size`: `os.path.getsize` over the filesystem oracle
`fs` (`none` = file absent, where `getsize` raises `FileNotFoundError`);
the `except FileNotFoundError` clause turns that into `0`. -/
def get_file_size (fs : String → Option Nat) (file_path : String) : Nat :=
  match fs file_path with
  | some n => n
  | none => 0

end stats

namespace main

/-- `allowed_exts = set(compressor.IMAGE_EXTS) | set(compressor.VIDEO_EXTS)`. -/
def allowed_exts : List String :=
  compressor.IMAGE_EXTS ++ compressor.VIDEO_EXTS

/-- One entry of `os.listdir(input_directory)` together with its
`os.path.isfile` status. -/
structure DirEntry where
  name : String
  isFile : Bool
deriving Repr, DecidableEq

/-- `files_to_process`: regular files whose lower-cased extension is in
`allowed_exts` (lines 30-34 of `main.py`). -/
def files_to_process (listing : List DirEntry) : List String :=
  ((listing.filter (fun e => e.isFile && decide (extOf e.name ∈ allowed_exts))).map
    DirEntry.name)

/-- The per-file result dictionary `res` built by `task`. -/
structure TaskRes where
  filename : String
  original_size : Nat
  compressed_size : Nat
  ratio : Rat
  savings : Int
  error : Option String
  error_log : String
deriving Repr, DecidableEq

/-- The two running totals updated under the lock. -/
structure SizeTotals where
  total_original_size : Nat
  total_compressed_size : Nat
deriving Repr, DecidableEq

/-- Operations a task performs on its resource-class semaphore. -/
inductive SemEvent
  | acq
  | rel
deriving Repr, DecidableEq

/-- Effect of a semaphore operation on the class's permit count. -/
def semApply (n : Int) : SemEvent → Int
  | SemEvent.acq => n - 1
  | SemEvent.rel => n + 1

/-- The body of `task` (lines 140-219 of `main.py`), one worker's whole
job lifecycle. `outcome` is the behaviour of the
`compressor.compress_file` call: `Except.ok` its returned dictionary,
`Except.error` an exception raised from inside the `try` block (the
`except Exception` arm). The semaphore is acquired before the `try` and
released in the `finally`; the returned event list records those
operations in program order. Returns `(res, new totals, events)`. -/
def task (fs : String → Option Nat) (input_path output_path filename : String)
    (outcome : Except String compressor.CFResult) (t : SizeTotals) :
    TaskRes × SizeTotals × List SemEvent :=
  -- sem.acquire()
  let acquired : List SemEvent := [SemEvent.acq]
  let body : TaskRes × SizeTotals :=
    match outcome with
    | Except.ok result =>
        let compressed_size := stats.get_file_size fs output_path
        let original_size_local := stats.get_file_size fs input_path
        let ratio : Rat :=
          if 0 < compressed_size then (original_size_local : Rat) / (compressed_size : Rat)
          else 0
        let savings : Int := (original_size_local : Int) - (compressed_size : Int)
        -- with lock: totals += ...
        let t2 : SizeTotals :=
          { total_original_size := t.total_original_size + original_size_local,
            total_compressed_size := t.total_compressed_size + compressed_size }
        (⟨filename, original_size_local, compressed_size, ratio, savings,
          result.error, result.error_log⟩, t2)
    | Except.error e =>
        -- except Exception as e: totals untouched, sizes zeroed
        let original_size_local := stats.get_file_size fs input_path
        (⟨filename, original_size_local, 0, 0, 0, some e, e⟩, t)
  -- finally: completion bookkeeping, then sem.release()
  (body.1, body.2, acquired ++ [SemEvent.rel])

/-- Aggregate state of one run, as far as the claims need it. -/
structure RunState where
  totals : SizeTotals
  records : List TaskRes
  completed_count : Nat
deriving Repr, DecidableEq

/-- Executing one submitted file: `task` runs, its completion is
counted in the `finally`, and its `res` is the `file_complete` payload. -/
def stepTask (fs : String → Option Nat)
    (outcomes : String → Except String compressor.CFResult)
    (input_dir output_dir : String) (st : RunState) (f : String) : RunState :=
  let r := task fs (input_dir ++ "/" ++ f) (output_dir ++ "/" ++ f) f
    (outcomes f) st.totals
  { totals := r.2.1, records := st.records ++ [r.1],
    completed_count := st.completed_count + 1 }

/-- Running a list of submitted jobs to completion, in order. The
thread pool interleaves them; every interleaving performs exactly these
per-task updates, each under the lock, so the sequential fold is the
per-run accounting. -/
def runJobs (fs : String → Option Nat)
    (outcomes : String → Except String compressor.CFResult)
    (input_dir output_dir : String) (st : RunState) :
    List String → RunState
  | [] => st
  | f :: rest =>
      runJobs fs outcomes input_dir output_dir
        (stepTask fs outcomes input_dir output_dir st f) rest

/-- `submitted_count` at the end of the submission loop: one increment
per element of `files_to_process`. -/
def submitted_count (listing : List DirEntry) : Nat :=
  (files_to_process listing).length

/-- A whole run of `main()` over a directory listing: submit every
classified file, run every job. -/
def runMain (fs : String → Option Nat)
    (outcomes : String → Except String compressor.CFResult)
    (input_dir output_dir : String) (listing : List DirEntry) : RunState :=
  runJobs fs outcomes input_dir output_dir ⟨⟨0, 0⟩, [], 0⟩
    (files_to_process listing)

/-- The resource class `main.py`'s scheduler assigns to a file:
membership of `compressor.VIDEO_EXTS` selects the video semaphore, a
remaining allowed extension the image semaphore, anything else is never
submitted (`files_to_process` filter). -/
def classifyByScheduler (f : String) : String :=
  let ext := extOf f
  if ext ∈ compressor.VIDEO_EXTS then "video"
  else if ext ∈ compressor.IMAGE_EXTS then "image"
  else "skip"

end main

namespace pipeline

/-- `pipeline.VIDEO_EXTS` — note: no `.webm`, unlike
`compressor.VIDEO_EXTS`. -/
def VIDEO_EXTS : List String := [".mp4", ".mkv", ".mov", ".avi"]

/-- `pipeline.IMAGE_EXTS`. -/
def IMAGE_EXTS : List String := [".jpg", ".jpeg", ".png"]

/-- `pipeline.classify`. -/
def classify (path : String) : String :=
  let ext := extOf path
  if ext ∈ VIDEO_EXTS then "video"
  else if ext ∈ IMAGE_EXTS then "image"
  else "other"

end pipeline

/-! ## Theorems -/

/-! ### C10 — the two classifier embeddings -/

/-- The video set of `pipeline.py` is the video set of `compressor.py`
minus `.webm`. -/
theorem pipeline_video_iff (e : String) :
    e ∈ pipeline.VIDEO_EXTS ↔ e ∈ compressor.VIDEO_EXTS ∧ e ≠ ".webm" := by
  simp only [pipeline.VIDEO_EXTS, compressor.VIDEO_EXTS, List.mem_cons,
    List.not_mem_nil, or_false]
  constructor
  · rintro (rfl | rfl | rfl | rfl) <;> exact ⟨by decide, by decide⟩
  · rintro ⟨(rfl | rfl | rfl | rfl | rfl), hne⟩ <;>
      first
        | decide
        | exact absurd rfl hne

/-- Claim C10, as stated, is false: `a.webm` is classified `video` by
the scheduler's extension sets (`compressor.VIDEO_EXTS`) but `other` by
`pipeline.classify`, so the two classification embeddings are not equal
as functions of the file extension. -/
theorem classifier_equivalence_counterexample :
    pipeline.classify "a.webm" = "other" ∧
    main.classifyByScheduler "a.webm" = "video" ∧
    extOf "a.webm" ∈ compressor.VIDEO_EXTS ∧
    pipeline.classify "a.webm" ≠ "video" := by
  refine ⟨by decide, by decide, by decide, by decide⟩

/-- Claim C10, amended: the two classifiers agree on the image class
exactly; on the video class they agree for every extension except
`.webm`, which the scheduler treats as video while `pipeline.classify`
returns `other`. -/
theorem classifier_equivalence_amended (p : String) :
    (pipeline.classify p = "image" ↔ main.classifyByScheduler p = "image") ∧
    (pipeline.classify p = "video" ↔
      (main.classifyByScheduler p = "video" ∧ extOf p ≠ ".webm")) := by
  have hv := pipeline_video_iff (extOf p)
  simp only [pipeline.classify, main.classifyByScheduler]
  by_cases h1 : extOf p ∈ pipeline.VIDEO_EXTS
  · have h2 : extOf p ∈ compressor.VIDEO_EXTS := (hv.mp h1).1
    have h3 : extOf p ≠ ".webm" := (hv.mp h1).2
    rw [if_pos h1, if_pos h2]
    exact ⟨Iff.rfl, ⟨fun _ => ⟨rfl, h3⟩, fun _ => rfl⟩⟩
  · by_cases hw : extOf p = ".webm"
    · have h2 : extOf p ∈ compressor.VIDEO_EXTS := by rw [hw]; decide
      have h4 : extOf p ∉ pipeline.IMAGE_EXTS := by rw [hw]; decide
      rw [if_neg h1, if_pos h2, if_neg h4]
      constructor
      · exact ⟨fun h => absurd h (by decide), fun h => absurd h (by decide)⟩
      · exact ⟨fun h => absurd h (by decide), fun h => absurd hw h.2⟩
    · have h2 : extOf p ∉ compressor.VIDEO_EXTS := fun hc => h1 (hv.mpr ⟨hc, hw⟩)
      rw [if_neg h1, if_neg h2]
      by_cases h3 : extOf p ∈ pipeline.IMAGE_EXTS
      · have h4 : extOf p ∈ compressor.IMAGE_EXTS := h3
        rw [if_pos h3, if_pos h4]
        refine ⟨Iff.rfl, ⟨fun h => absurd h (by decide), fun h => absurd h.1 (by decide)⟩⟩
      · have h4 : extOf p ∉ compressor.IMAGE_EXTS := h3
        rw [if_neg h3, if_neg h4]
        constructor
        · exact ⟨fun h => absurd h (by decide), fun h => absurd h (by decide)⟩
        · exact ⟨fun h => absurd h (by decide), fun h => absurd h.1 (by decide)⟩

/-! ### C1 — the fallback executor runs attempts strictly in order -/

/-- The image and video extension sets of `compressor.py` are disjoint. -/
theorem image_not_video {e : String} (h : e ∈ compressor.IMAGE_EXTS) :
    e ∉ compressor.VIDEO_EXTS := by
  simp only [compressor.IMAGE_EXTS, List.mem_cons, List.not_mem_nil,
    or_false] at h
  rcases h with rfl | rfl | rfl <;> decide

/-- Claim C1: for a job of either resource class, if attempt `k`
(0-based) is the first whose external process exits with status zero,
then `compress_file` has invoked exactly attempts `0..k` in order and
returns attempt `k`'s strategy tag with `error = None`; later attempts
are never invoked. -/
theorem fallback_executor_order (path : String) (useProgress : Bool)
    (env : Nat → compressor.ProcResult) (k : Nat)
    (hclass : extOf path ∈ compressor.VIDEO_EXTS ∨
      extOf path ∈ compressor.IMAGE_EXTS)
    (hk : k < (compressor.attemptTags (extOf path)).length)
    (hfail : ∀ j, j < k → (env j).returncode ≠ 0)
    (hsucc : (env k).returncode = 0) :
    (compressor.compress_file path useProgress env).2 = List.range (k + 1) ∧
    (compressor.compress_file path useProgress env).1.type =
      (compressor.attemptTags (extOf path)).getD k "" ∧
    (compressor.compress_file path useProgress env).1.error = none := by
  rcases hclass with hvid | himg
  · have htags : compressor.attemptTags (extOf path) =
        ["video-gpu", "video-gpu-swdec", "video-cpu"] := by
      rw [compressor.attemptTags, if_pos hvid]
    rw [htags] at hk
    simp only [List.length_cons, List.length_nil] at hk
    unfold compressor.compress_file
    rw [htags, if_pos hvid]
    interval_cases k
    · have h0 : compressor.attemptOk (env 0) = true := by
        simp [compressor.attemptOk, hsucc]
      simp only [h0, if_true]
      exact ⟨by decide, by decide, trivial⟩
    · have h0 : compressor.attemptOk (env 0) = false := by
        simp only [compressor.attemptOk, beq_eq_false_iff_ne, ne_eq]
        exact hfail 0 (by omega)
      have h1 : compressor.attemptOk (env 1) = true := by
        simp [compressor.attemptOk, hsucc]
      simp only [h0, h1, Bool.false_eq_true, if_false, if_true]
      exact ⟨by decide, by decide, trivial⟩
    · have h0 : compressor.attemptOk (env 0) = false := by
        simp only [compressor.attemptOk, beq_eq_false_iff_ne, ne_eq]
        exact hfail 0 (by omega)
      have h1 : compressor.attemptOk (env 1) = false := by
        simp only [compressor.attemptOk, beq_eq_false_iff_ne, ne_eq]
        exact hfail 1 (by omega)
      have h2 : compressor.attemptOk (env 2) = true := by
        simp [compressor.attemptOk, hsucc]
      simp only [h0, h1, h2, Bool.false_eq_true, if_false, if_true]
      exact ⟨by decide, by decide, trivial⟩
  · have hnv : extOf path ∉ compressor.VIDEO_EXTS := image_not_video himg
    have htags : compressor.attemptTags (extOf path) =
        ["image-gpu", "image-cpu"] := by
      rw [compressor.attemptTags, if_neg hnv, if_pos himg]
    rw [htags] at hk
    simp only [List.length_cons, List.length_nil] at hk
    unfold compressor.compress_file
    rw [htags, if_neg hnv, if_pos himg]
    interval_cases k
    · have h0 : compressor.attemptOk (env 0) = true := by
        simp [compressor.attemptOk, hsucc]
      simp only [h0, if_true]
      exact ⟨by decide, by decide, trivial⟩
    · have h0 : compressor.attemptOk (env 0) = false := by
        simp only [compressor.attemptOk, beq_eq_false_iff_ne, ne_eq]
        exact hfail 0 (by omega)
      have h1 : compressor.attemptOk (env 1) = true := by
        simp [compressor.attemptOk, hsucc]
      simp only [h0, h1, Bool.false_eq_true, if_false, if_true]
      exact ⟨by decide, by decide, trivial⟩

/-- Attempt environment for the C1 witness: attempt 0 fails, all later
attempts succeed. -/
def envC1 : Nat → compressor.ProcResult :=
  fun j => if j = 0 then ⟨1, 0, "e0"⟩ else ⟨0, 2, ""⟩

/-- Witness for C1: a video job whose first attempt fails and whose
second succeeds invokes attempts 0 and 1 and returns the second tag. -/
theorem fallback_executor_order_witness :
    (compressor.compress_file "a.mp4" false envC1).2 = List.range (1 + 1) ∧
    (compressor.compress_file "a.mp4" false envC1).1.type =
      (compressor.attemptTags (extOf "a.mp4")).getD 1 "" ∧
    (compressor.compress_file "a.mp4" false envC1).1.error = none :=
  fallback_executor_order "a.mp4" false envC1 1 (Or.inl (by decide))
    (by decide) (fun j hj => by interval_cases j; decide) (by decide)

/-! ### C7 — diagnostics when every attempt fails -/

/-- Attempt environment where both image attempts fail with distinct
diagnostics. -/
def envImgFail : Nat → compressor.ProcResult :=
  fun j => if j = 0 then ⟨1, 0, "A"⟩ else ⟨1, 0, "B"⟩

/-- Claim C7, as stated, is false for the image class: when both image
attempts fail, `compress_file` returns only the second attempt's
diagnostic (`err2`), not the concatenation of all attempts'
diagnostics — the first attempt's diagnostic `A` is dropped. -/
theorem all_fail_diagnostics_counterexample :
    (compressor.compress_file "b.jpg" false envImgFail).1.type = "image-failed" ∧
    (compressor.compress_file "b.jpg" false envImgFail).1.error =
      some "ffmpeg_failed" ∧
    (compressor.compress_file "b.jpg" false envImgFail).1.error_log = "B" ∧
    compressor.joinDiagnostics ["A", "B"] = "A\nB" ∧
    (compressor.compress_file "b.jpg" false envImgFail).1.error_log ≠
      compressor.joinDiagnostics ["A", "B"] :=
  ⟨by decide, by decide, by decide, by decide, by decide⟩

/-- Claim C7, amended: if every attempt fails, the result carries the
class's `-failed` tag and the `ffmpeg_failed` error; the diagnostic
text is the newline-join of the non-empty per-attempt diagnostics for
the video class (all empty when progress streaming is used, since the
streaming runner returns an empty diagnostic), but only the second
attempt's diagnostic for the image class. -/
theorem all_fail_diagnostics_amended (pv pi : String) (useProgress : Bool)
    (envv envi : Nat → compressor.ProcResult)
    (hv : extOf pv ∈ compressor.VIDEO_EXTS)
    (hi : extOf pi ∈ compressor.IMAGE_EXTS)
    (hfv : ∀ j, j < 3 → (envv j).returncode ≠ 0)
    (hfi : ∀ j, j < 2 → (envi j).returncode ≠ 0) :
    (compressor.compress_file pv useProgress envv).1 =
      ⟨"video-failed", 0, some "ffmpeg_failed",
        compressor.joinDiagnostics
          [compressor.attemptErr useProgress (envv 0),
           compressor.attemptErr useProgress (envv 1),
           compressor.attemptErr useProgress (envv 2)]⟩ ∧
    (compressor.compress_file pi useProgress envi).1 =
      ⟨"image-failed", 0, some "ffmpeg_failed",
        compressor.attemptErr false (envi 1)⟩ := by
  constructor
  · have h0 : compressor.attemptOk (envv 0) = false := by
      simp only [compressor.attemptOk, beq_eq_false_iff_ne, ne_eq]
      exact hfv 0 (by omega)
    have h1 : compressor.attemptOk (envv 1) = false := by
      simp only [compressor.attemptOk, beq_eq_false_iff_ne, ne_eq]
      exact hfv 1 (by omega)
    have h2 : compressor.attemptOk (envv 2) = false := by
      simp only [compressor.attemptOk, beq_eq_false_iff_ne, ne_eq]
      exact hfv 2 (by omega)
    unfold compressor.compress_file
    rw [if_pos hv]
    simp only [h0, h1, h2, Bool.false_eq_true, if_false]
  · have hnv : extOf pi ∉ compressor.VIDEO_EXTS := image_not_video hi
    have h0 : compressor.attemptOk (envi 0) = false := by
      simp only [compressor.attemptOk, beq_eq_false_iff_ne, ne_eq]
      exact hfi 0 (by omega)
    have h1 : compressor.attemptOk (envi 1) = false := by
      simp only [compressor.attemptOk, beq_eq_false_iff_ne, ne_eq]
      exact hfi 1 (by omega)
    unfold compressor.compress_file
    rw [if_neg hnv, if_pos hi]
    simp only [h0, h1, Bool.false_eq_true, if_false]

/-- Attempt environment where all three video attempts fail. -/
def envVidFail : Nat → compressor.ProcResult :=
  fun j => if j = 0 then ⟨1, 0, " e1 "⟩ else if j = 1 then ⟨2, 0, "e2"⟩
    else ⟨3, 0, ""⟩

/-- Witness for the amended C7, at a concrete video job (three failing
attempts, non-progress mode) and a concrete image job (two failing
attempts). -/
theorem all_fail_diagnostics_amended_witness :
    (compressor.compress_file "a.mp4" false envVidFail).1 =
      ⟨"video-failed", 0, some "ffmpeg_failed",
        compressor.joinDiagnostics
          [compressor.attemptErr false (envVidFail 0),
           compressor.attemptErr false (envVidFail 1),
           compressor.attemptErr false (envVidFail 2)]⟩ ∧
    (compressor.compress_file "b.jpg" false envImgFail).1 =
      ⟨"image-failed", 0, some "ffmpeg_failed",
        compressor.attemptErr false (envImgFail 1)⟩ :=
  all_fail_diagnostics_amended "a.mp4" "b.jpg" false envVidFail envImgFail
    (by decide) (by decide)
    (fun j hj => by interval_cases j <;> decide)
    (fun j hj => by interval_cases j <;> decide)

/-! ### C4/C5/C6 — the progress tracker -/

/-- Claim C5: a `progress=end` line emits a sample with percent 100,
whatever the duration knowledge; the tracker's `percent` state is not
modified by it. -/
theorem progress_end_forces_100 (d : Option Rat) (p : Rat) :
    compressor.handleKV d p "progress" "end" = (p, [⟨100, none, none⟩]) ∧
    compressor.processLine d p "progress=end" = (p, [⟨100, none, none⟩]) :=
  ⟨rfl, rfl⟩

/-- Claim C4: an elapsed-position line (`out_time_ms`, `out_time_us` or
`out_time`) with a parseable value emits one sample whose percent is
`clamp(elapsed / duration * 100, 0, 100)` when a positive duration is
known, and `0` when no duration is known. `out_time_ms` and
`out_time_us` values are both divided by `10^6` to give seconds. -/
theorem progress_percent_formula (d p : Rat) (hd : 0 < d)
    (valms : String) (n : Int) (hn : pyInt? valms = some n)
    (valt : String) (hh hm : Int) (sfrac : Rat)
    (ht : compressor.splitTimeVal valt = some (hh, hm, sfrac)) :
    compressor.handleKV (some d) p "out_time_ms" valms =
      (max 0 (min 100 ((n : Rat) / 1000000 / d * 100)),
       [⟨max 0 (min 100 ((n : Rat) / 1000000 / d * 100)), none,
         some ((n : Rat) / 1000000)⟩]) ∧
    compressor.handleKV (some d) p "out_time_us" valms =
      (max 0 (min 100 ((n : Rat) / 1000000 / d * 100)),
       [⟨max 0 (min 100 ((n : Rat) / 1000000 / d * 100)), none,
         some ((n : Rat) / 1000000)⟩]) ∧
    compressor.handleKV (some d) p "out_time" valt =
      (max 0 (min 100 (((hh : Rat) * 3600 + (hm : Rat) * 60 + sfrac) / d * 100)),
       [⟨max 0 (min 100 (((hh : Rat) * 3600 + (hm : Rat) * 60 + sfrac) / d * 100)),
         none, some ((hh : Rat) * 3600 + (hm : Rat) * 60 + sfrac)⟩]) ∧
    compressor.handleKV none p "out_time_ms" valms =
      (0, [⟨0, none, some ((n : Rat) / 1000000)⟩]) ∧
    compressor.handleKV none p "out_time_us" valms =
      (0, [⟨0, none, some ((n : Rat) / 1000000)⟩]) ∧
    compressor.handleKV none p "out_time" valt =
      (0, [⟨0, none, some ((hh : Rat) * 3600 + (hm : Rat) * 60 + sfrac)⟩]) := by
  refine ⟨?_, ?_, ?_, ?_, ?_, ?_⟩
  · unfold compressor.handleKV
    rw [if_pos rfl, hn]
    simp [compressor.computePercent, hd]
  · unfold compressor.handleKV
    rw [if_neg (by decide), if_pos rfl, hn]
    simp [compressor.computePercent, hd]
  · unfold compressor.handleKV
    rw [if_neg (by decide), if_neg (by decide), if_pos rfl, ht]
    simp [compressor.computePercent, hd]
  · unfold compressor.handleKV
    rw [if_pos rfl, hn]
    simp [compressor.computePercent]
  · unfold compressor.handleKV
    rw [if_neg (by decide), if_pos rfl, hn]
    simp [compressor.computePercent]
  · unfold compressor.handleKV
    rw [if_neg (by decide), if_neg (by decide), if_pos rfl, ht]
    simp [compressor.computePercent]

/-- Witness for C4, reproducing the spec's end-to-end numbers: with
duration 10 s known, the line `out_time_ms=5000000` yields percent 50. -/
theorem progress_percent_formula_witness :
    (0 : Rat) < 10 ∧
    pyInt? "5000000" = some 5000000 ∧
    compressor.splitTimeVal "00:00:05.0" = some (0, 0, 5) ∧
    compressor.handleKV (some 10) 0 "out_time_ms" "5000000" =
      (max 0 (min 100 ((5000000 : Rat) / 1000000 / 10 * 100)),
       [⟨max 0 (min 100 ((5000000 : Rat) / 1000000 / 10 * 100)), none,
         some ((5000000 : Rat) / 1000000)⟩]) ∧
    max 0 (min 100 ((5000000 : Rat) / 1000000 / 10 * 100)) = 50 ∧
    compressor.handleKV none 0 "out_time" "00:00:05.0" =
      (0, [⟨0, none, some ((0 : Rat) * 3600 + (0 : Rat) * 60 + 5)⟩]) := by
  have h1 : (0 : Rat) < 10 := by norm_num
  have h2 : pyInt? "5000000" = some ((5000000 : Int)) := by decide
  have h3 : compressor.splitTimeVal "00:00:05.0" = some (0, 0, 5) := by
    have hsplit : compressor.splitOnChar ':' "00:00:05.0".toList =
        [['0', '0'], ['0', '0'], ['0', '5', '.', '0']] := by decide
    have ha : pyIntChars? ['0', '0'] = some 0 := by decide
    have hp : pyFloatParts? ['0', '5', '.', '0'] = some (1, 5, 0, 1) := by decide
    have hb : pyFloatChars? ['0', '5', '.', '0'] = some 5 := by
      unfold pyFloatChars?
      rw [hp]
      show some (ratOfFloatParts (1, 5, 0, 1)) = some (5 : Rat)
      norm_num [ratOfFloatParts]
    unfold compressor.splitTimeVal
    rw [hsplit]
    simp only [ha, hb]
  have h4 := progress_percent_formula 10 0 h1 "5000000" 5000000 h2
    "00:00:05.0" 0 0 5 h3
  exact ⟨h1, h2, h3, h4.1, by norm_num, h4.2.2.2.2.2⟩

/-- Claim C6: a `speed` line emits one sample whose speed multiplier is
the parsed `<float>x` value and whose percent is the tracker's current
`percent` state, which the line leaves unchanged; since the terminal
marker also leaves the state unchanged, a `speed` line arriving after
`progress=end` still repeats the last known percent. -/
theorem speed_line_repeats_percent (d : Option Rat) (p : Rat) (val : String)
    (q : Rat) (hq : compressor.parseSpeed val = some q) :
    compressor.handleKV d p "speed" val = (p, [⟨p, some q, none⟩]) ∧
    compressor.handleKV d ((compressor.handleKV d p "progress" "end").1)
      "speed" val = (p, [⟨p, some q, none⟩]) := by
  have h1 : compressor.handleKV d p "speed" val =
      (p, [⟨p, compressor.parseSpeed val, none⟩]) := rfl
  rw [hq] at h1
  exact ⟨h1, h1⟩

/-- Witness for C6 at the spec's example value `2.34x`, after a
terminal marker, with percent state 50. -/
theorem speed_line_repeats_percent_witness :
    compressor.parseSpeed "2.34x" = some (117 / 50) ∧
    compressor.handleKV (some 10) 50 "speed" "2.34x" =
      (50, [⟨50, some (117 / 50), none⟩]) ∧
    compressor.handleKV (some 10)
      ((compressor.handleKV (some 10) 50 "progress" "end").1)
      "speed" "2.34x" = (50, [⟨50, some (117 / 50), none⟩]) := by
  have hq : compressor.parseSpeed "2.34x" = some (117 / 50) := by
    unfold compressor.parseSpeed
    rw [if_pos (by decide)]
    have hr : compressor.removeAllChar 'x' "2.34x" = "2.34" := by decide
    rw [hr]
    unfold pyFloat? pyFloatChars?
    rw [show pyFloatParts? "2.34".toList = some (1, 2, 34, 2) from by decide]
    show some (ratOfFloatParts (1, 2, 34, 2)) = some ((117 / 50 : Rat))
    norm_num [ratOfFloatParts]
  have h := speed_line_repeats_percent (some 10) 50 "2.34x" (117 / 50) hq
  exact ⟨hq, h.1, h.2⟩

/-! ### C2 — the semaphore is released exactly once per task -/

/-- Claim C2: whatever the compression call does — returns a success
dictionary, returns a tool-failure dictionary, or raises an arbitrary
exception — a task's semaphore trace is exactly one `acquire` followed
by exactly one `release` (acquire before the `try`, release in the
`finally`), so the class's permit count is restored and no permit
leaks. -/
theorem semaphore_released_exactly_once
    (fs : String → Option Nat) (input_path output_path filename : String)
    (outcome : Except String compressor.CFResult) (t : main.SizeTotals)
    (n : Int) :
    (main.task fs input_path output_path filename outcome t).2.2 =
      [main.SemEvent.acq, main.SemEvent.rel] ∧
    ((main.task fs input_path output_path filename outcome t).2.2).count
      main.SemEvent.acq = 1 ∧
    ((main.task fs input_path output_path filename outcome t).2.2).count
      main.SemEvent.rel = 1 ∧
    ((main.task fs input_path output_path filename outcome t).2.2).foldl
      main.semApply n = n := by
  refine ⟨rfl, rfl, rfl, ?_⟩
  show n - 1 + 1 = n
  omega

/-! ### C3 — skips are never submitted; counts agree at the end -/

/-- Each executed job increments `completed_count` exactly once. -/
theorem runJobs_completed (fs : String → Option Nat)
    (outcomes : String → Except String compressor.CFResult)
    (input_dir output_dir : String) :
    ∀ (files : List String) (st : main.RunState),
      (main.runJobs fs outcomes input_dir output_dir st files).completed_count =
        st.completed_count + files.length := by
  intro files
  induction files with
  | nil => intro st; simp [main.runJobs]
  | cons f rest ih =>
      intro st
      rw [main.runJobs, ih]
      simp [main.stepTask]
      omega

/-- Claim C3: a directory entry whose lower-cased extension is in no
known class never appears among the submitted files (so it never
increments `submitted_count`), and when the run finishes
`completed_count = submitted_count =` the number of classified
(non-skip) input files. -/
theorem skip_excluded_and_counts_agree (listing : List main.DirEntry)
    (fs : String → Option Nat)
    (outcomes : String → Except String compressor.CFResult)
    (input_dir output_dir : String) (e : main.DirEntry)
    (hmem : e ∈ listing) (h2 : extOf e.name ∉ main.allowed_exts) :
    e.name ∉ main.files_to_process listing ∧
    (main.runMain fs outcomes input_dir output_dir listing).completed_count =
      main.submitted_count listing ∧
    main.submitted_count listing =
      (listing.filter
        (fun x => x.isFile && decide (extOf x.name ∈ main.allowed_exts))).length := by
  refine ⟨?_, ?_, ?_⟩
  · intro hsub
    simp only [main.files_to_process, List.mem_map, List.mem_filter,
      Bool.and_eq_true, decide_eq_true_eq] at hsub
    rcases hsub with ⟨x, ⟨hxl, hfile, hext⟩, hname⟩
    exact h2 (hname ▸ hext)
  · unfold main.runMain main.submitted_count
    rw [runJobs_completed]
    simp
  · simp [main.submitted_count, main.files_to_process]

/-- Directory listing for the C3 witness: two classified files, one
unknown extension, one non-regular entry. -/
def listingC3 : List main.DirEntry :=
  [⟨"a.mp4", true⟩, ⟨"b.txt", true⟩, ⟨"c.jpg", true⟩, ⟨"d.mp4", false⟩]

/-- Filesystem for the C3 witness. -/
def fsC3 : String → Option Nat := fun _ => some 7

/-- Compression outcomes for the C3 witness. -/
def outcomesC3 : String → Except String compressor.CFResult :=
  fun _ => Except.ok ⟨"image-cpu", 1, none, ""⟩

/-- Witness for C3 on a concrete listing containing `b.txt`. -/
theorem skip_excluded_and_counts_agree_witness :
    (⟨"b.txt", true⟩ : main.DirEntry) ∈ listingC3 ∧
    extOf "b.txt" ∉ main.allowed_exts ∧
    ("b.txt" ∉ main.files_to_process listingC3 ∧
     (main.runMain fsC3 outcomesC3 "in" "out" listingC3).completed_count =
       main.submitted_count listingC3 ∧
     main.submitted_count listingC3 =
       (listingC3.filter
         (fun x => x.isFile && decide (extOf x.name ∈ main.allowed_exts))).length) :=
  ⟨by decide, by decide,
    skip_excluded_and_counts_agree listingC3 fsC3 outcomesC3 "in" "out"
      ⟨"b.txt", true⟩ (by decide) (by decide)⟩

/-! ### C8 — the exact totals/savings accounting identity -/

/-- The accounting invariant preserved by every completed job: the
difference of the run totals equals the sum of the recorded savings. -/
theorem runJobs_totals_invariant (fs : String → Option Nat)
    (outcomes : String → Except String compressor.CFResult)
    (input_dir output_dir : String) :
    ∀ (files : List String) (st : main.RunState),
      ((st.totals.total_original_size : Int) -
        st.totals.total_compressed_size =
        (st.records.map main.TaskRes.savings).sum) →
      ((main.runJobs fs outcomes input_dir output_dir st files).totals.total_original_size : Int) -
        (main.runJobs fs outcomes input_dir output_dir st files).totals.total_compressed_size =
        ((main.runJobs fs outcomes input_dir output_dir st files).records.map
          main.TaskRes.savings).sum := by
  intro files
  induction files with
  | nil => intro st h; simpa [main.runJobs] using h
  | cons f rest ih =>
      intro st h
      rw [main.runJobs]
      apply ih
      rcases hout : outcomes f with e | res
      · simp only [main.stepTask, main.task, hout]
        simpa using h
      · simp only [main.stepTask, main.task, hout]
        simp only [List.map_append, List.sum_append, List.map_cons,
          List.map_nil, List.sum_cons, List.sum_nil]
        push_cast
        omega

/-- Filesystem for the C8 counterexample: the input file exists with
size 5, nothing else does. -/
def fsC8 : String → Option Nat :=
  fun p => if p = "in/f.mp4" then some 5 else none

/-- Compression outcomes for the C8 counterexample: the compression
call raises an exception, taking the `except` path of `task`. -/
def outcomesErr : String → Except String compressor.CFResult :=
  fun _ => Except.error "boom"

/-- Claim C8, as stated, is false: after a job whose compression call
raised an exception, the completion record carries
`original_size = 5, compressed_size = 0`, so the sum of
`original_size - compressed_size` over completed jobs is 5, while
`total_original_size - total_compressed_size` is 0 (the exception path
never updates the totals). The identity only holds for the recorded
`savings` field, which the exception path sets to 0. -/
theorem totals_savings_identity_counterexample :
    ((main.runJobs fsC8 outcomesErr "in" "out" ⟨⟨0, 0⟩, [], 0⟩
        ["f.mp4"]).totals.total_original_size : Int) -
      (main.runJobs fsC8 outcomesErr "in" "out" ⟨⟨0, 0⟩, [], 0⟩
        ["f.mp4"]).totals.total_compressed_size = 0 ∧
    ((main.runJobs fsC8 outcomesErr "in" "out" ⟨⟨0, 0⟩, [], 0⟩
        ["f.mp4"]).records.map
      (fun r => (r.original_size : Int) - (r.compressed_size : Int))).sum = 5 ∧
    ((main.runJobs fsC8 outcomesErr "in" "out" ⟨⟨0, 0⟩, [], 0⟩
        ["f.mp4"]).records.map main.TaskRes.savings).sum = 0 ∧
    (0 : Int) ≠ 5 :=
  ⟨by decide, by decide, by decide, by decide⟩

/-- Claim C8, amended: at every point of every run,
`total_original_size - total_compressed_size` equals the exact integer
sum of the recorded `savings` of all completed jobs; for a job that
completes without an unexpected fault the recorded savings is exactly
its `original_size - compressed_size`, while a job whose compression
call raises records savings 0 and leaves the totals unchanged. -/
theorem totals_savings_identity_amended (fs : String → Option Nat)
    (outcomes : String → Except String compressor.CFResult)
    (input_dir output_dir : String) (files : List String) :
    (((main.runJobs fs outcomes input_dir output_dir ⟨⟨0, 0⟩, [], 0⟩
        files).totals.total_original_size : Int) -
      (main.runJobs fs outcomes input_dir output_dir ⟨⟨0, 0⟩, [], 0⟩
        files).totals.total_compressed_size =
      ((main.runJobs fs outcomes input_dir output_dir ⟨⟨0, 0⟩, [], 0⟩
        files).records.map main.TaskRes.savings).sum) ∧
    (∀ (ip op fn : String) (res : compressor.CFResult) (t : main.SizeTotals),
      (main.task fs ip op fn (Except.ok res) t).1.savings =
        ((main.task fs ip op fn (Except.ok res) t).1.original_size : Int) -
        ((main.task fs ip op fn (Except.ok res) t).1.compressed_size : Int)) ∧
    (∀ (ip op fn e : String) (t : main.SizeTotals),
      (main.task fs ip op fn (Except.error e) t).1.savings = 0 ∧
      (main.task fs ip op fn (Except.error e) t).2.1 = t) := by
  refine ⟨?_, ?_, ?_⟩
  · exact runJobs_totals_invariant fs outcomes input_dir output_dir files
      ⟨⟨0, 0⟩, [], 0⟩ (by simp)
  · intro ip op fn res t
    rfl
  · intro ip op fn e t
    exact ⟨rfl, rfl⟩

/-! ### C9 — missing files read as size 0 and full-size savings -/

/-- Claim C9: `get_file_size` returns 0 instead of raising when the
file does not exist; consequently a job whose compression produced no
output file completes with `compressed_size = 0`, `ratio = 0`, savings
equal to the full original size, and adds `(original, 0)` to the run
totals. -/
theorem missing_output_counts_full_savings (fs : String → Option Nat)
    (p input_path output_path filename : String)
    (res : compressor.CFResult) (t : main.SizeTotals)
    (hp : fs p = none) (hout : fs output_path = none) :
    stats.get_file_size fs p = 0 ∧
    (main.task fs input_path output_path filename (Except.ok res) t).1.compressed_size = 0 ∧
    (main.task fs input_path output_path filename (Except.ok res) t).1.ratio = 0 ∧
    (main.task fs input_path output_path filename (Except.ok res) t).1.savings =
      (stats.get_file_size fs input_path : Int) ∧
    (main.task fs input_path output_path filename (Except.ok res) t).2.1 =
      ⟨t.total_original_size + stats.get_file_size fs input_path,
       t.total_compressed_size + 0⟩ := by
  have hgp : stats.get_file_size fs p = 0 := by
    unfold stats.get_file_size
    rw [hp]
  have hgo : stats.get_file_size fs output_path = 0 := by
    unfold stats.get_file_size
    rw [hout]
  refine ⟨hgp, ?_, ?_, ?_, ?_⟩ <;> simp [main.task, hgo]

/-- Filesystem for the C9 witness: only the input file exists. -/
def fsC9 : String → Option Nat :=
  fun q => if q = "in/v.mp4" then some 9 else none

/-- A failed-compression result dictionary for the C9 witness. -/
def resC9 : compressor.CFResult :=
  ⟨"video-failed", 0, some "ffmpeg_failed", "boom"⟩

/-- Witness for C9 at a concrete missing output file. -/
theorem missing_output_counts_full_savings_witness :
    fsC9 "nosuch" = none ∧ fsC9 "out/v.mp4" = none ∧
    (stats.get_file_size fsC9 "nosuch" = 0 ∧
     (main.task fsC9 "in/v.mp4" "out/v.mp4" "v.mp4" (Except.ok resC9)
       ⟨100, 40⟩).1.compressed_size = 0 ∧
     (main.task fsC9 "in/v.mp4" "out/v.mp4" "v.mp4" (Except.ok resC9)
       ⟨100, 40⟩).1.ratio = 0 ∧
     (main.task fsC9 "in/v.mp4" "out/v.mp4" "v.mp4" (Except.ok resC9)
       ⟨100, 40⟩).1.savings = (stats.get_file_size fsC9 "in/v.mp4" : Int) ∧
     (main.task fsC9 "in/v.mp4" "out/v.mp4" "v.mp4" (Except.ok resC9)
       ⟨100, 40⟩).2.1 =
       ⟨100 + stats.get_file_size fsC9 "in/v.mp4", 40 + 0⟩) :=
  ⟨by decide, by decide,
    missing_output_counts_full_savings fsC9 "nosuch" "in/v.mp4" "out/v.mp4"
      "v.mp4" resC9 ⟨100, 40⟩ (by decide) (by decide)⟩
